import Mathlib

/-!
Verification of the netatmo-otel synchronizer core against its source.

The embedding models:
- `netatmo/client.go`: `doRequest` (envelope handling) and `GetMeasure`
  (pagination, flattening, cursor advance);
- `main.go`: the start-time resolution of `exportHistory` (incremental sink
  query, fixed lookback, resume-token handling) and the per-unit run loop.

Conventions of the embedding:
- `time.Time` is modelled as `Int`, the Unix-seconds reading of the instant.
  Go's zero `time.Time` (January 1, year 1, 00:00:00 UTC) sits at Unix second
  `-62135596800`, so `IsZero` becomes comparison with that constant,
  `time.Unix(s, 0)` is `s`, `t.Add(d seconds)` is `t + d`, `t.Unix()` is `t`.
  All times reaching the modelled code are whole seconds, so no nanosecond
  component is needed.
- Measurement scalars (`float64` in Go) are an arbitrary type parameter; the
  modelled code only moves them around, never computes with them.
- The HTTP+JSON layer is modelled at the decoded level: a response is its
  status code together with the decode outcomes of the envelope, of the
  envelope's `error` field, and of the `body` field.
-/

namespace Netatmo

/-- Unix seconds of Go's zero `time.Time` (January 1, year 1, 00:00:00 UTC). -/
def timeZeroUnix : Int := -62135596800

/-- One group of `getMeasureBody` (client.go): `beg_time`, `step_time`, and the
list of per-step value vectors. -/
structure Group (A : Type) where
  begTime : Int
  step : Int
  value : List (List A)
deriving DecidableEq

/-- `DataPoint` from client.go: a timestamp plus the vector of values. -/
structure DataPoint (A : Type) where
  time : Int
  values : List A
deriving DecidableEq

/-- The inner loop of the flattening in `GetMeasure` (client.go lines 100-103):
starting from time `t`, each inner vector becomes a point and `t` advances by
`step`. Returns the points plus the final value of `t`. -/
def flattenGroupAux {A : Type} (step : Int) : Int → List (List A) → List (DataPoint A) × Int
  | t, [] => ([], t)
  | t, v :: vs =>
    let r := flattenGroupAux step (t + step) vs
    (⟨t, v⟩ :: r.1, r.2)

/-- Points contributed by one group: times `begTime, begTime+step, ...`. -/
def groupPoints {A : Type} (g : Group A) : List (DataPoint A) :=
  (flattenGroupAux g.step g.begTime g.value).1

/-- The value of `t` after one group's inner loop. -/
def groupEnd {A : Type} (g : Group A) : Int :=
  (flattenGroupAux g.step g.begTime g.value).2

/-- One step of the outer flattening loop: points accumulate, `t` is replaced
by the group's end time. -/
def flattenStep {A : Type} (acc : List (DataPoint A) × Int) (g : Group A) :
    List (DataPoint A) × Int :=
  (acc.1 ++ groupPoints g, groupEnd g)

/-- The whole flattening loop of `GetMeasure` (client.go lines 96-104): `t` is
reset to each group's `beg_time`, points accumulate across groups, and the
returned `t` is whatever the variable holds after the last group (initially the
zero time from `var t time.Time`). -/
def flattenBody {A : Type} (body : List (Group A)) : List (DataPoint A) × Int :=
  body.foldl flattenStep ([], timeZeroUnix)

/-- `errorBody` from client.go. -/
structure ErrorBody where
  code : Int
  message : String
deriving DecidableEq

/-- The decoded `genericResponse` envelope (client.go). `errorField`:
`none` means the `error` key is absent; `some none` means it is present but
`json.Unmarshal` into `errorBody` fails; `some (some eb)` means it decodes to
`eb`. `bodyField`: `none` means unmarshalling `body` as `T` fails. -/
structure GenericResponse (T : Type) where
  errorField : Option (Option ErrorBody)
  bodyField : Option T
deriving DecidableEq

/-- Outcome of the transport + envelope decode for one request, as seen by
`doRequest`: either the transport fails, or a status arrives with the envelope
decode result (`none` = `genericResponse` decode failure). -/
inductive HttpOutcome (T : Type) where
  | transportErr
  | resp (status : Nat) (envelope : Option (GenericResponse T))
deriving DecidableEq

/-- The errors `doRequest` can return. -/
inductive ReqError where
  | transport
  | httpStatus (code : Nat)
  | decodeFailure
deriving DecidableEq

/-- `doRequest` (client.go lines 113-149). `zero` is Go's `var zero T`.
Mirrors the source exactly, including line 141: in the branch where the
envelope's `error` field is present and unmarshals into `errorBody`
successfully, the source executes `return zero, err` where `err` is the
function-scoped variable last assigned by `client.Do` — which is `nil` on this
path — so the function returns the zero value with a nil error (a success). -/
def doRequest {T : Type} (zero : T) : HttpOutcome T → Except ReqError T
  | .transportErr => .error .transport
  | .resp status env =>
    if status ≠ 200 then .error (.httpStatus status)
    else
      match env with
      | none => .error .decodeFailure
      | some r =>
        match r.errorField with
        | some none => .error .decodeFailure
        | some (some _) => .ok zero
        | none =>
          match r.bodyField with
          | none => .error .decodeFailure
          | some b => .ok b

/-- Result of one modelled `GetMeasure` run. `truncated` is a model artifact:
the scripted response list ran out while the source loop would have issued
another request. -/
inductive GMResult (E : Type) where
  | success
  | apiError (e : ReqError)
  | consumerError (e : E)
  | truncated
deriving DecidableEq

/-- Observable trace of a `GetMeasure` run: the `date_begin` parameter of every
issued request in order (`none` = parameter unset), the `(points, nextTime)`
pairs passed to `yield`, the result, and the value of the query's `date_begin`
variable when the function returns. -/
structure GMTrace (A E : Type) where
  requests : List (Option Int)
  yields : List (List (DataPoint A) × Int)
  result : GMResult E
  finalDateBegin : Option Int
deriving DecidableEq

/-- The loop of `GetMeasure` (client.go lines 87-109), run against a scripted
list of per-request HTTP outcomes. Each iteration: call `doRequest` (zero value
of `getMeasureBody` is the empty list); on error return it; on an empty body
return success; otherwise flatten, call `yield points t`, and on success set
`date_begin` to `t + 1` and continue. -/
def getMeasureGo {A E : Type} (consumer : List (DataPoint A) → Int → Option E) :
    List (HttpOutcome (List (Group A))) → Option Int → GMTrace A E
  | [], d => ⟨[], [], .truncated, d⟩
  | h :: rest, d =>
    match doRequest [] h with
    | .error e => ⟨[d], [], .apiError e, d⟩
    | .ok [] => ⟨[d], [], .success, d⟩
    | .ok (g :: gs) =>
      let fr := flattenBody (g :: gs)
      match consumer fr.1 fr.2 with
      | some e => ⟨[d], [fr], .consumerError e, d⟩
      | none =>
        let tr := getMeasureGo consumer rest (some (fr.2 + 1))
        ⟨d :: tr.requests, fr :: tr.yields, tr.result, tr.finalDateBegin⟩

/-- Entry to `GetMeasure`: `date_begin` is set initially only when `since` is
not the zero time (client.go lines 83-85). -/
def getMeasure {A E : Type} (consumer : List (DataPoint A) → Int → Option E)
    (pages : List (HttpOutcome (List (Group A)))) (since : Int) : GMTrace A E :=
  getMeasureGo consumer pages (if since = timeZeroUnix then none else some since)

/-- Go's `strings.Split(s, sep)` for a one-character separator, on the
character list of `s`. `Split` of a string with no separator is the singleton
of that string; a leading separator contributes an empty first part. -/
def splitChar (sep : Char) : List Char → List (List Char)
  | [] => [[]]
  | c :: rest =>
    let r := splitChar sep rest
    if c = sep then [] :: r
    else
      match r with
      | [] => [[c]]
      | h :: t => (c :: h) :: t

/-- `strings.Split(s, "/")` as used on the resume token (main.go). -/
def goSplitSlash (s : String) : List String :=
  (splitChar '/' s.toList).map (fun cs => String.mk cs)

/-- Digit accumulator for `goAtoi`. -/
def digitsToNat : List Char → Nat → Nat
  | [], acc => acc
  | c :: cs, acc => digitsToNat cs (acc * 10 + (c.toNat - 48))

/-- Go's `strconv.Atoi`: optional sign, then one or more ASCII digits, value
within the 64-bit `int` range; anything else is an error (`none`). -/
def goAtoi (s : String) : Option Int :=
  let cs := s.toList
  let signed : Bool × List Char :=
    match cs with
    | '-' :: rest => (true, rest)
    | '+' :: rest => (false, rest)
    | _ => (false, cs)
  if signed.2 = [] then none
  else if ¬ signed.2.all Char.isDigit then none
  else
    let n : Int := Int.ofNat (digitsToNat signed.2 0)
    let v := if signed.1 then -n else n
    if v < -(2 ^ 63) ∨ v ≥ 2 ^ 63 then none else some v

/-- One element of the `model.Vector` returned by the sink query in
`exportHistory` (main.go): the sample's `dev_id` label and its value, already
truncated to `int64` as by `int64(sample.Value)`. -/
structure Sample where
  devId : String
  value : Int
deriving DecidableEq

/-- The sample filter of `exportHistory` (main.go line 432), with Go's
short-circuit precedence `a && b || c && d`. -/
def sampleMatches (device module' : String) (s : Sample) : Bool :=
  (module' ≠ "" && s.devId == module') || (module' == "" && s.devId == device)

/-- How the start-time resolution of `exportHistory` (main.go lines 422-455)
can end. `queryError`: the sink query failed and the function returned its
error before looking at the token. `skip`: the token is set but names another
unit, so the function returned without paginating. `atoiError`:
`strconv.Atoi` on the token's third field failed. `panicOOB`: an index out of
range on the split token parts (fewer parts than the code indexes).
`start since`: pagination proceeds from `since`. -/
inductive StartResult where
  | queryError
  | skip
  | atoiError
  | panicOOB
  | start (since : Int)
deriving DecidableEq

/-- The incremental block's `since` (main.go lines 423-437): the first sample
of the vector whose `dev_id` matches the unit sets `since` to its value plus
one second; otherwise `since` keeps the zero time. -/
def sinceFromVec (device module' : String) (vec : List Sample) : Int :=
  match vec.find? (sampleMatches device module') with
  | some s => s.value + 1
  | none => timeZeroUnix

/-- The resume-token block of `exportHistory` (main.go lines 443-455), given
the `since` computed so far. Mirrors the source's short-circuit condition
`r[0] != device || r[1] != module`: `r[1]` (and later `r[2]`) is only indexed
when the preceding comparisons did not already settle the condition, and an
index beyond the split parts is a runtime panic. Returns the outcome and the
value of the global `resume` token afterwards. -/
def resumeCheck (since : Int) (resume device module' : String) :
    StartResult × String :=
  if resume = "" then (.start since, resume)
  else
    let r := goSplitSlash resume
    if r[0]? ≠ some device then (.skip, resume)
    else
      match r[1]? with
      | none => (.panicOOB, resume)
      | some m1 =>
        if m1 ≠ module' then (.skip, resume)
        else
          match r[2]? with
          | none => (.panicOOB, resume)
          | some eStr =>
            match goAtoi eStr with
            | none => (.atoiError, resume)
            | some sec => (.start sec, "")

/-- Start-time resolution of `exportHistory` (main.go lines 422-455), in source
order: the incremental sink query (whose failure returns before anything
else), then the fixed lookback fallback when `since` is still zero and
`scrapeSince` is nonzero, then the resume-token check. `queryResult = none`
models a failed sink query. Returns the outcome and the resume token's value
afterwards. -/
def resolveStart (incremental : Bool) (queryResult : Option (List Sample))
    (scrapeSince now : Int) (resume device module' : String) :
    StartResult × String :=
  match incremental, queryResult with
  | true, none => (.queryError, resume)
  | true, some vec =>
    let since := sinceFromVec device module' vec
    let since := if since = timeZeroUnix ∧ scrapeSince ≠ 0 then now - scrapeSince else since
    resumeCheck since resume device module'
  | false, _ =>
    let since := if scrapeSince ≠ 0 then now - scrapeSince else timeZeroUnix
    resumeCheck since resume device module'

/-- One sync unit: the device and the (possibly empty) module identifier. -/
structure SyncUnit where
  device : String
  module' : String
deriving DecidableEq

/-- The run loop over sync units (main.go `run`, lines 380-411): each unit's
`exportHistory` resolves its start against the current resume token and the
token's post-state threads into the next unit. `exportHistory`'s return value
is discarded by the caller, so a failing unit does not stop later units. -/
def runUnits (incremental : Bool) (query : SyncUnit → Option (List Sample))
    (scrapeSince now : Int) : String → List SyncUnit → List StartResult
  | _, [] => []
  | resume, u :: us =>
    let r := resolveStart incremental (query u) scrapeSince now resume u.device u.module'
    r.1 :: runUnits incremental query scrapeSince now r.2 us

/-- `exportHistory` for one unit, composed with the pagination model: resolve
the start; only a `start` outcome reaches `GetMeasure`. Returns the start
outcome, the resume token afterwards, and the number of upstream `getmeasure`
requests issued. -/
def exportHistoryModel {A E : Type}
    (incremental : Bool) (queryResult : Option (List Sample))
    (scrapeSince now : Int) (resume device module' : String)
    (pages : List (HttpOutcome (List (Group A))))
    (consumer : List (DataPoint A) → Int → Option E) :
    StartResult × String × Nat :=
  let r := resolveStart incremental queryResult scrapeSince now resume device module'
  match r.1 with
  | .start since => (r.1, r.2, (getMeasure consumer pages since).requests.length)
  | _ => (r.1, r.2, 0)

/-- A well-formed HTTP 200 response whose envelope has no `error` field and
whose body decodes to `groups`. `doRequest` returns `.ok groups` on it. -/
def okPage {A : Type} (groups : List (Group A)) : HttpOutcome (List (Group A)) :=
  .resp 200 (some ⟨none, some groups⟩)

/-- The groups `doRequest` yields for a page (empty on error). -/
def pageGroups {A : Type} (h : HttpOutcome (List (Group A))) : List (Group A) :=
  match doRequest [] h with
  | .ok gs => gs
  | .error _ => []

/-- A page outcome on which one `GetMeasure` iteration proceeds to the next
request: `doRequest` succeeds with a non-empty body and the consumer accepts
the flattened points. -/
def consumedOkB {A E : Type} (consumer : List (DataPoint A) → Int → Option E)
    (h : HttpOutcome (List (Group A))) : Bool :=
  match doRequest [] h with
  | .ok (g :: gs) =>
    (consumer (flattenBody (g :: gs)).1 (flattenBody (g :: gs)).2).isNone
  | _ => false

/-- The upstream wire contract for one response: every inner value vector of
every delivered group has length `n`, the requested DataType count. -/
def respWellFormedB {A : Type} (n : Nat) (h : HttpOutcome (List (Group A))) : Bool :=
  match doRequest [] h with
  | .ok gs => gs.all (fun g => g.value.all (fun v => v.length == n))
  | .error _ => true

/-- The spec's flattening example group: beg_time 1000, step_time 300, two
value rows. -/
def cexGroup : Group Int := ⟨1000, 300, [[20, 50], [21, 49]]⟩

/-- A consumer that accepts every page. -/
def cexConsumer : List (DataPoint Int) → Int → Option Unit := fun _ _ => none

/-- Trace of `GetMeasure` over the spec example page followed by an empty
page, starting from since 500. -/
def cexTrace : GMTrace Int Unit :=
  getMeasureGo cexConsumer [okPage [cexGroup], okPage []] (some 500)

/-- A consumer that accepts pages ending at 1600 or earlier and rejects later
ones. -/
def cexFailConsumer : List (DataPoint Int) → Int → Option Unit :=
  fun _ t => if 1600 < t then some () else none

/-! ## Lemmas about the flattening loop -/

theorem flattenGroupAux_get? {A : Type} (step : Int) :
    ∀ (vs : List (List A)) (t : Int) (i : Nat),
      ((flattenGroupAux step t vs).1)[i]? =
        (vs[i]?).map (fun v => DataPoint.mk (t + step * i) v)
  | [], _, _ => by simp [flattenGroupAux]
  | _ :: _, _, 0 => by simp [flattenGroupAux]
  | _ :: vs, t, i + 1 => by
    have harith : t + step + step * (i : Int) = t + step * ((i : Int) + 1) := by ring
    simp only [flattenGroupAux, List.getElem?_cons_succ, Nat.cast_add, Nat.cast_one]
    rw [flattenGroupAux_get? step vs (t + step) i, harith]

theorem flattenGroupAux_snd {A : Type} (step : Int) :
    ∀ (vs : List (List A)) (t : Int),
      (flattenGroupAux step t vs).2 = t + step * vs.length
  | [], t => by simp [flattenGroupAux]
  | _ :: vs, t => by
    simp only [flattenGroupAux, List.length_cons]
    rw [flattenGroupAux_snd step vs (t + step)]
    push_cast
    ring

theorem flattenGroupAux_length {A : Type} (step : Int) :
    ∀ (vs : List (List A)) (t : Int),
      (flattenGroupAux step t vs).1.length = vs.length
  | [], _ => by simp [flattenGroupAux]
  | _ :: vs, t => by
    simp only [flattenGroupAux, List.length_cons]
    rw [flattenGroupAux_length step vs (t + step)]

theorem flattenGroupAux_mem {A : Type} (step : Int) :
    ∀ (vs : List (List A)) (t : Int) (p : DataPoint A),
      p ∈ (flattenGroupAux step t vs).1 → p.values ∈ vs
  | [], _, _, hp => by simp [flattenGroupAux] at hp
  | v :: vs, t, p, hp => by
    simp only [flattenGroupAux, List.mem_cons] at hp
    rcases hp with hp | hp
    · subst hp; exact List.mem_cons_self _ _
    · exact List.mem_cons_of_mem _ (flattenGroupAux_mem step vs (t + step) p hp)

theorem flattenFold_fst {A : Type} :
    ∀ (groups : List (Group A)) (acc : List (DataPoint A) × Int),
      (List.foldl flattenStep acc groups).1 = acc.1 ++ (groups.map groupPoints).flatten
  | [], acc => by simp
  | g :: gs, acc => by
    simp only [List.foldl_cons, List.map_cons, List.flatten_cons]
    rw [flattenFold_fst gs (flattenStep acc g)]
    simp [flattenStep, List.append_assoc]

theorem flattenBody_fst {A : Type} (groups : List (Group A)) :
    (flattenBody groups).1 = (groups.map groupPoints).flatten := by
  simpa using flattenFold_fst groups ([], timeZeroUnix)

theorem flattenFold_snd {A : Type} :
    ∀ (groups : List (Group A)) (acc : List (DataPoint A) × Int) (glast : Group A),
      groups.getLast? = some glast →
      (List.foldl flattenStep acc groups).2 = groupEnd glast
  | [], _, _, h => by simp at h
  | [g], acc, glast, h => by
    simp only [List.getLast?_singleton, Option.some.injEq] at h
    subst h
    simp [flattenStep]
  | g :: g2 :: gs, acc, glast, h => by
    rw [List.getLast?_cons_cons] at h
    simpa using flattenFold_snd (g2 :: gs) (flattenStep acc g) glast h

theorem flattenBody_snd {A : Type} (groups : List (Group A)) (glast : Group A)
    (h : groups.getLast? = some glast) :
    (flattenBody groups).2 = glast.begTime + glast.step * glast.value.length := by
  rw [flattenBody, flattenFold_snd groups _ glast h, groupEnd, flattenGroupAux_snd]

theorem flattenBody_mem {A : Type} (groups : List (Group A)) (p : DataPoint A)
    (hp : p ∈ (flattenBody groups).1) :
    ∃ g ∈ groups, p.values ∈ g.value := by
  rw [flattenBody_fst] at hp
  rcases List.mem_flatten.mp hp with ⟨l, hl, hpl⟩
  rcases List.mem_map.mp hl with ⟨g, hg, rfl⟩
  exact ⟨g, hg, flattenGroupAux_mem _ _ _ p hpl⟩

/-! ## Lemmas about the pagination loop -/

theorem doRequest_okPage {A : Type} (groups : List (Group A)) :
    doRequest [] (okPage groups) = .ok groups := rfl

theorem pageGroups_of_ok {A : Type} (h : HttpOutcome (List (Group A)))
    (gs : List (Group A)) (hdo : doRequest [] h = .ok gs) :
    pageGroups h = gs := by
  rw [pageGroups, hdo]

theorem getMeasureGo_cons_apiError {A E : Type}
    (consumer : List (DataPoint A) → Int → Option E)
    (h : HttpOutcome (List (Group A))) (rest : List (HttpOutcome (List (Group A))))
    (d : Option Int) (e : ReqError) (hdo : doRequest [] h = .error e) :
    getMeasureGo consumer (h :: rest) d = ⟨[d], [], .apiError e, d⟩ := by
  simp [getMeasureGo, hdo]

theorem getMeasureGo_cons_done {A E : Type}
    (consumer : List (DataPoint A) → Int → Option E)
    (h : HttpOutcome (List (Group A))) (rest : List (HttpOutcome (List (Group A))))
    (d : Option Int) (hdo : doRequest [] h = .ok []) :
    getMeasureGo consumer (h :: rest) d = ⟨[d], [], .success, d⟩ := by
  simp [getMeasureGo, hdo]

theorem getMeasureGo_cons_consumerError {A E : Type}
    (consumer : List (DataPoint A) → Int → Option E)
    (h : HttpOutcome (List (Group A))) (rest : List (HttpOutcome (List (Group A))))
    (d : Option Int) (g : Group A) (gs : List (Group A)) (e : E)
    (hdo : doRequest [] h = .ok (g :: gs))
    (hc : consumer (flattenBody (g :: gs)).1 (flattenBody (g :: gs)).2 = some e) :
    getMeasureGo consumer (h :: rest) d
      = ⟨[d], [flattenBody (g :: gs)], .consumerError e, d⟩ := by
  simp [getMeasureGo, hdo, hc]

theorem getMeasureGo_cons_step {A E : Type}
    (consumer : List (DataPoint A) → Int → Option E)
    (h : HttpOutcome (List (Group A))) (rest : List (HttpOutcome (List (Group A))))
    (d : Option Int) (g : Group A) (gs : List (Group A))
    (hdo : doRequest [] h = .ok (g :: gs))
    (hc : consumer (flattenBody (g :: gs)).1 (flattenBody (g :: gs)).2 = none) :
    getMeasureGo consumer (h :: rest) d =
      ⟨d :: (getMeasureGo consumer rest (some ((flattenBody (g :: gs)).2 + 1))).requests,
       flattenBody (g :: gs) ::
         (getMeasureGo consumer rest (some ((flattenBody (g :: gs)).2 + 1))).yields,
       (getMeasureGo consumer rest (some ((flattenBody (g :: gs)).2 + 1))).result,
       (getMeasureGo consumer rest (some ((flattenBody (g :: gs)).2 + 1))).finalDateBegin⟩ := by
  simp [getMeasureGo, hdo, hc]

theorem getMeasureGo_cons_step' {A E : Type}
    (consumer : List (DataPoint A) → Int → Option E)
    (h : HttpOutcome (List (Group A))) (rest : List (HttpOutcome (List (Group A))))
    (d : Option Int) (groups : List (Group A))
    (hdo : doRequest [] h = .ok groups) (hne : groups ≠ [])
    (hc : consumer (flattenBody groups).1 (flattenBody groups).2 = none) :
    getMeasureGo consumer (h :: rest) d =
      ⟨d :: (getMeasureGo consumer rest (some ((flattenBody groups).2 + 1))).requests,
       flattenBody groups ::
         (getMeasureGo consumer rest (some ((flattenBody groups).2 + 1))).yields,
       (getMeasureGo consumer rest (some ((flattenBody groups).2 + 1))).result,
       (getMeasureGo consumer rest (some ((flattenBody groups).2 + 1))).finalDateBegin⟩ := by
  rcases groups with _ | ⟨g, gs⟩
  · exact absurd rfl hne
  · exact getMeasureGo_cons_step consumer h rest d g gs hdo hc

/-- Every nonempty run's first request carries the current date_begin. -/
theorem getMeasureGo_requests_head {A E : Type}
    (consumer : List (DataPoint A) → Int → Option E)
    (h : HttpOutcome (List (Group A))) (rest : List (HttpOutcome (List (Group A))))
    (d : Option Int) :
    (getMeasureGo consumer (h :: rest) d).requests[0]? = some d := by
  rcases hdo : doRequest ([] : List (Group A)) h with e | gs
  · rw [getMeasureGo_cons_apiError consumer h rest d e hdo]; simp
  · rcases gs with _ | ⟨g, gs⟩
    · rw [getMeasureGo_cons_done consumer h rest d hdo]; simp
    · rcases hc : consumer (flattenBody (g :: gs)).1 (flattenBody (g :: gs)).2 with _ | e
      · rw [getMeasureGo_cons_step consumer h rest d g gs hdo hc]; simp
      · rw [getMeasureGo_cons_consumerError consumer h rest d g gs e hdo hc]; simp

/-- One fully consumed iteration, phrased through `consumedOkB`. -/
theorem getMeasureGo_cons_consumed {A E : Type}
    (consumer : List (DataPoint A) → Int → Option E)
    (h : HttpOutcome (List (Group A))) (rest : List (HttpOutcome (List (Group A))))
    (d : Option Int) (hc : consumedOkB consumer h = true) :
    getMeasureGo consumer (h :: rest) d =
      ⟨d :: (getMeasureGo consumer rest (some ((flattenBody (pageGroups h)).2 + 1))).requests,
       flattenBody (pageGroups h) ::
         (getMeasureGo consumer rest (some ((flattenBody (pageGroups h)).2 + 1))).yields,
       (getMeasureGo consumer rest (some ((flattenBody (pageGroups h)).2 + 1))).result,
       (getMeasureGo consumer rest (some ((flattenBody (pageGroups h)).2 + 1))).finalDateBegin⟩ := by
  rw [consumedOkB] at hc
  rcases hdo : doRequest ([] : List (Group A)) h with e | gs
  · rw [hdo] at hc; simp at hc
  · rcases gs with _ | ⟨g, gs⟩
    · rw [hdo] at hc; simp at hc
    · rw [hdo] at hc
      simp only [Option.isNone_iff_eq_none] at hc
      rw [pageGroups_of_ok h _ hdo]
      exact getMeasureGo_cons_step consumer h rest d g gs hdo hc

/-- C7: pagination over a prefix of consumed pages followed by an empty page
returns success, and the number of issued requests is exactly the consumed
pages plus the final empty one, whatever responses would follow. -/
theorem c7_stop_on_empty_page {A E : Type}
    (consumer : List (DataPoint A) → Int → Option E) :
    ∀ (consumed : List (HttpOutcome (List (Group A))))
      (emptyPage : HttpOutcome (List (Group A)))
      (rest : List (HttpOutcome (List (Group A)))) (d : Option Int),
      (∀ h ∈ consumed, consumedOkB consumer h = true) →
      doRequest ([] : List (Group A)) emptyPage = .ok [] →
      (getMeasureGo consumer (consumed ++ emptyPage :: rest) d).result = GMResult.success ∧
      (getMeasureGo consumer (consumed ++ emptyPage :: rest) d).requests.length
        = consumed.length + 1
  | [], emptyPage, rest, d => by
    intro _ hempty
    rw [List.nil_append, getMeasureGo_cons_done consumer emptyPage rest d hempty]
    exact ⟨rfl, rfl⟩
  | h :: hs, emptyPage, rest, d => by
    intro hall hempty
    have hh := hall h (List.mem_cons_self _ _)
    have ih := c7_stop_on_empty_page consumer hs emptyPage rest
      (some ((flattenBody (pageGroups h)).2 + 1))
      (fun x hx => hall x (List.mem_cons_of_mem _ hx)) hempty
    rw [List.cons_append, getMeasureGo_cons_consumed consumer h _ d hh]
    exact ⟨ih.1, by simp [ih.2]⟩

/-- C8: if the consumer rejects the page flattened from `failPage` with error
`e`, after a prefix of consumed pages, the run ends with exactly that error,
no request beyond the failing one is issued, and the query's date_begin at
exit equals the one the failing request itself used (the cursor is not
advanced past the failure). -/
theorem c8_consumer_error_aborts {A E : Type}
    (consumer : List (DataPoint A) → Int → Option E) :
    ∀ (consumed : List (HttpOutcome (List (Group A))))
      (failPage : HttpOutcome (List (Group A)))
      (rest : List (HttpOutcome (List (Group A)))) (d : Option Int)
      (e : E) (g : Group A) (gs : List (Group A)),
      (∀ x ∈ consumed, consumedOkB consumer x = true) →
      doRequest ([] : List (Group A)) failPage = .ok (g :: gs) →
      consumer (flattenBody (g :: gs)).1 (flattenBody (g :: gs)).2 = some e →
      (getMeasureGo consumer (consumed ++ failPage :: rest) d).result
          = GMResult.consumerError e ∧
      (getMeasureGo consumer (consumed ++ failPage :: rest) d).requests.length
          = consumed.length + 1 ∧
      (getMeasureGo consumer (consumed ++ failPage :: rest) d).requests.getLast?
          = some (getMeasureGo consumer (consumed ++ failPage :: rest) d).finalDateBegin
  | [], failPage, rest, d, e, g, gs => by
    intro _ hfail hcons
    rw [List.nil_append,
      getMeasureGo_cons_consumerError consumer failPage rest d g gs e hfail hcons]
    exact ⟨rfl, rfl, rfl⟩
  | h :: hs, failPage, rest, d, e, g, gs => by
    intro hall hfail hcons
    have hh := hall h (List.mem_cons_self _ _)
    have ih := c8_consumer_error_aborts consumer hs failPage rest
      (some ((flattenBody (pageGroups h)).2 + 1)) e g gs
      (fun x hx => hall x (List.mem_cons_of_mem _ hx)) hfail hcons
    rw [List.cons_append, getMeasureGo_cons_consumed consumer h _ d hh]
    refine ⟨ih.1, by simp [ih.2.1], ?_⟩
    rcases hl : (getMeasureGo consumer (hs ++ failPage :: rest)
        (some ((flattenBody (pageGroups h)).2 + 1))).requests with _ | ⟨x, l⟩
    · exfalso
      have hlen := ih.2.1
      rw [hl] at hlen
      simp at hlen
    · have h3 := ih.2.2
      rw [hl] at h3
      simpa [List.getLast?_cons_cons] using h3

/-- C9: if every delivered page satisfies the wire contract (all inner value
vectors of length `n`), then every point of every page passed to the consumer
has a Values vector of length `n`. -/
theorem c9_values_length_invariant {A E : Type}
    (consumer : List (DataPoint A) → Int → Option E) :
    ∀ (pages : List (HttpOutcome (List (Group A)))) (d : Option Int) (n : Nat),
      (∀ h ∈ pages, respWellFormedB n h = true) →
      ∀ py ∈ (getMeasureGo consumer pages d).yields, ∀ p ∈ py.1, p.values.length = n
  | [], d, n => by
    intro _ py hpy
    rw [getMeasureGo] at hpy
    simp at hpy
  | h :: rest, d, n => by
    intro hall py hpy p hp
    have hwf := hall h (List.mem_cons_self _ _)
    rcases hdo : doRequest ([] : List (Group A)) h with e | gs
    · rw [getMeasureGo_cons_apiError consumer h rest d e hdo] at hpy
      simp at hpy
    · rcases gs with _ | ⟨g, gs⟩
      · rw [getMeasureGo_cons_done consumer h rest d hdo] at hpy
        simp at hpy
      · have hlen : ∀ q ∈ (flattenBody (g :: gs)).1, q.values.length = n := by
          intro q hq
          rcases flattenBody_mem _ q hq with ⟨g1, hg1, hv⟩
          rw [respWellFormedB, hdo] at hwf
          have h1 := (List.all_eq_true.mp hwf) g1 hg1
          have h2 := (List.all_eq_true.mp h1) q.values hv
          exact eq_of_beq h2
        rcases hc : consumer (flattenBody (g :: gs)).1 (flattenBody (g :: gs)).2 with _ | e
        · rw [getMeasureGo_cons_step consumer h rest d g gs hdo hc] at hpy
          simp only [List.mem_cons] at hpy
          rcases hpy with rfl | hpy
          · exact hlen p hp
          · exact c9_values_length_invariant consumer rest _ n
              (fun x hx => hall x (List.mem_cons_of_mem _ hx)) py hpy p hp
        · rw [getMeasureGo_cons_consumerError consumer h rest d g gs e hdo hc] at hpy
          simp only [List.mem_singleton] at hpy
          subst hpy
          exact hlen p hp

/-! ## Last-point lemmas for the cursor computation -/

theorem groupPoints_get? {A : Type} (g : Group A) (i : Nat) :
    (groupPoints g)[i]? =
      (g.value[i]?).map (fun v => DataPoint.mk (g.begTime + g.step * i) v) :=
  flattenGroupAux_get? g.step g.value g.begTime i

theorem groupPoints_length {A : Type} (g : Group A) :
    (groupPoints g).length = g.value.length :=
  flattenGroupAux_length g.step g.value g.begTime

theorem groupPoints_ne_nil {A : Type} (g : Group A) (hv : g.value ≠ []) :
    groupPoints g ≠ [] := by
  intro h
  apply hv
  have := groupPoints_length g
  rw [h] at this
  exact List.length_eq_zero.mp this.symm

/-- The end-of-group time is one step past the last point of the group. -/
theorem groupEnd_eq_last_time {A : Type} (g : Group A) (p : DataPoint A)
    (hp : (groupPoints g).getLast? = some p) :
    groupEnd g = p.time + g.step := by
  have hv : g.value ≠ [] := by
    intro h
    rw [groupPoints, h] at hp
    simp [flattenGroupAux] at hp
  have hn : 0 < g.value.length := List.length_pos.mpr hv
  rw [List.getLast?_eq_getElem?, groupPoints_length, groupPoints_get?] at hp
  have hidx : g.value.length - 1 < g.value.length := by omega
  rw [List.getElem?_eq_getElem hidx] at hp
  simp only [Option.map_some', Option.some.injEq] at hp
  have htime : p.time = g.begTime + g.step * ((g.value.length - 1 : Nat) : Int) := by
    rw [← hp]
  have hcast : ((g.value.length - 1 : Nat) : Int) = (g.value.length : Int) - 1 := by omega
  rw [groupEnd, flattenGroupAux_snd, htime, hcast]
  ring

theorem flattenFold_getLast {A : Type} :
    ∀ (groups : List (Group A)) (acc : List (DataPoint A) × Int) (glast : Group A),
      groups.getLast? = some glast → glast.value ≠ [] →
      (List.foldl flattenStep acc groups).1.getLast? = (groupPoints glast).getLast?
  | [], _, _, h, _ => by simp at h
  | [g], acc, glast, h, hv => by
    simp only [List.getLast?_singleton, Option.some.injEq] at h
    subst h
    simp only [List.foldl_cons, List.foldl_nil, flattenStep]
    exact List.getLast?_append_of_ne_nil _ (groupPoints_ne_nil g hv)
  | g :: g2 :: gs, acc, glast, h, hv => by
    rw [List.getLast?_cons_cons] at h
    simpa using flattenFold_getLast (g2 :: gs) (flattenStep acc g) glast h hv

/-- The page's final `t` is one step of the last group past the page's last
point, whenever the last group contributes at least one point. -/
theorem flattenBody_snd_eq_last_time {A : Type} (groups : List (Group A))
    (glast : Group A) (p : DataPoint A)
    (hlast : groups.getLast? = some glast) (hv : glast.value ≠ [])
    (hp : (flattenBody groups).1.getLast? = some p) :
    (flattenBody groups).2 = p.time + glast.step := by
  rw [flattenBody, flattenFold_getLast groups _ glast hlast hv] at hp
  rw [flattenBody, flattenFold_snd groups _ glast hlast]
  exact groupEnd_eq_last_time glast p hp

/-! ## Claim theorems: client.go -/

/-- C1 (code bug evidence): an HTTP 200 response whose envelope carries a
populated, well-formed error object is returned by `doRequest` as a success
with the zero value: the decoded code and message are dropped, because
client.go line 141 returns the function-scoped `err`, which is nil on that
path. `GetMeasure` then takes the zero `getMeasureBody` for an empty page and
terminates as if the sync unit were complete. -/
theorem c1_error_envelope_not_surfaced :
    doRequest ([] : List (Group Int))
        (.resp 200 (some ⟨some (some ⟨21, "user"⟩), none⟩)) = .ok [] ∧
    (getMeasureGo (fun (_ : List (DataPoint Int)) (_ : Int) => (none : Option Unit))
        [.resp 200 (some ⟨some (some ⟨21, "user"⟩), none⟩)] none).result
      = GMResult.success := by
  exact ⟨rfl, rfl⟩

/-- C2 (counterexample): on the spec's own example page (one group with
beg_time 1000, step 300, two value rows, so last point at 1300), the nextTime
passed to the consumer is 1600, not 1301, and the following request's
date_begin is 1601, not 1301. -/
theorem c2_counterexample :
    cexTrace.yields.map Prod.snd = [1600] ∧
    (flattenBody [cexGroup]).1.getLast?.map DataPoint.time = some 1300 ∧
    cexTrace.requests = [some 500, some 1601] ∧
    ¬ ((1600 : Int) = 1300 + 1 ∧ (some (1601 : Int) : Option Int) = some (1300 + 1)) := by
  refine ⟨rfl, rfl, rfl, ?_⟩
  intro h
  exact absurd h.1 (by decide)

/-- C2 (amended): for a consumed non-empty page, the nextTime handed to the
consumer together with the flattened points is the last group's beg_time plus
its step times its number of value rows — that is, one step of the last group
past the page's last point — and the date_begin of the following request is
that nextTime plus one second. -/
theorem c2_next_cursor_amended {A E : Type}
    (consumer : List (DataPoint A) → Int → Option E)
    (groups : List (Group A)) (glast : Group A) (p : DataPoint A)
    (h2 : HttpOutcome (List (Group A))) (rest2 : List (HttpOutcome (List (Group A))))
    (d : Option Int)
    (hlast : groups.getLast? = some glast)
    (hv : glast.value ≠ [])
    (hp : (flattenBody groups).1.getLast? = some p)
    (hcons : consumer (flattenBody groups).1 (flattenBody groups).2 = none) :
    (getMeasureGo consumer (okPage groups :: h2 :: rest2) d).yields.head?
        = some (flattenBody groups) ∧
    (flattenBody groups).2 = glast.begTime + glast.step * glast.value.length ∧
    (flattenBody groups).2 = p.time + glast.step ∧
    (getMeasureGo consumer (okPage groups :: h2 :: rest2) d).requests[1]?
        = some (some ((flattenBody groups).2 + 1)) := by
  have hne : groups ≠ [] := by
    intro h
    rw [h] at hlast
    simp at hlast
  have hstep := getMeasureGo_cons_step' consumer (okPage groups) (h2 :: rest2) d groups
    (doRequest_okPage groups) hne hcons
  rw [hstep]
  refine ⟨rfl, flattenBody_snd groups glast hlast,
    flattenBody_snd_eq_last_time groups glast p hlast hv hp, ?_⟩
  simp only [List.getElem?_cons_succ]
  exact getMeasureGo_requests_head consumer h2 rest2 _

/-- C2 witness: the amended statement instantiated on the spec example. -/
theorem c2_next_cursor_amended_witness :
    (getMeasureGo cexConsumer (okPage [cexGroup] :: okPage [] :: []) (some 500)).yields.head?
        = some (flattenBody [cexGroup]) ∧
    (flattenBody [cexGroup]).2 = cexGroup.begTime + cexGroup.step * cexGroup.value.length ∧
    (flattenBody [cexGroup]).2 = DataPoint.time ⟨1300, [21, 49]⟩ + cexGroup.step ∧
    (getMeasureGo cexConsumer (okPage [cexGroup] :: okPage [] :: []) (some 500)).requests[1]?
        = some (some ((flattenBody [cexGroup]).2 + 1)) :=
  c2_next_cursor_amended cexConsumer [cexGroup] cexGroup ⟨1300, [21, 49]⟩
    (okPage []) [] (some 500) (by decide) (by decide) (by decide) rfl

/-- C5: flattening expands each group into one DataPoint per inner value
vector, at times beg_time, beg_time+step, beg_time+2*step, ..., with Values
equal to that inner vector, and the page's point list is the concatenation of
the groups' points in the order received. -/
theorem c5_flattening {A : Type} (groups : List (Group A)) (g : Group A) (i : Nat) :
    (flattenBody groups).1 = (groups.map groupPoints).flatten ∧
    (groupPoints g)[i]? =
      (g.value[i]?).map (fun v => DataPoint.mk (g.begTime + g.step * i) v) :=
  ⟨flattenBody_fst groups, groupPoints_get? g i⟩

/-- C7 witness: one consumed page, then an empty page, with one more scripted
response that is never requested. -/
theorem c7_stop_on_empty_page_witness :
    (getMeasureGo cexConsumer
        ([okPage [cexGroup]] ++ okPage [] :: [okPage [(⟨9, 9, [[1]]⟩ : Group Int)]])
        none).result = GMResult.success ∧
    (getMeasureGo cexConsumer
        ([okPage [cexGroup]] ++ okPage [] :: [okPage [(⟨9, 9, [[1]]⟩ : Group Int)]])
        none).requests.length = [okPage [cexGroup]].length + 1 :=
  c7_stop_on_empty_page cexConsumer [okPage [cexGroup]] (okPage [])
    [okPage [(⟨9, 9, [[1]]⟩ : Group Int)]] none (by decide) rfl

/-- C8 witness: the example page is consumed, the next page (ending at 2020)
is rejected, and the run stops there with the cursor still at the failing
request. -/
theorem c8_consumer_error_aborts_witness :
    (getMeasureGo cexFailConsumer
        ([okPage [cexGroup]] ++ okPage [(⟨2000, 10, [[1], [2]]⟩ : Group Int)] :: [okPage []])
        (some 500)).result = GMResult.consumerError () ∧
    (getMeasureGo cexFailConsumer
        ([okPage [cexGroup]] ++ okPage [(⟨2000, 10, [[1], [2]]⟩ : Group Int)] :: [okPage []])
        (some 500)).requests.length = [okPage [cexGroup]].length + 1 ∧
    (getMeasureGo cexFailConsumer
        ([okPage [cexGroup]] ++ okPage [(⟨2000, 10, [[1], [2]]⟩ : Group Int)] :: [okPage []])
        (some 500)).requests.getLast?
      = some (getMeasureGo cexFailConsumer
          ([okPage [cexGroup]] ++ okPage [(⟨2000, 10, [[1], [2]]⟩ : Group Int)] :: [okPage []])
          (some 500)).finalDateBegin :=
  c8_consumer_error_aborts cexFailConsumer [okPage [cexGroup]]
    (okPage [(⟨2000, 10, [[1], [2]]⟩ : Group Int)]) [okPage []] (some 500) ()
    ⟨2000, 10, [[1], [2]]⟩ [] (by decide) rfl (by decide)

/-- C9 witness: on the example trace, a concrete yielded point has exactly the
two requested values. -/
theorem c9_values_length_invariant_witness :
    (DataPoint.mk 1000 [20, 50] : DataPoint Int).values.length = 2 :=
  c9_values_length_invariant cexConsumer [okPage [cexGroup], okPage []] none 2
    (by decide) (flattenBody [cexGroup]) (by decide) ⟨1000, [20, 50]⟩ (by decide)

/-! ## Lemmas about the start-time resolution -/

theorem goSplitSlash_nil : goSplitSlash "" = [""] := rfl

theorem resolveStart_false (queryResult : Option (List Sample)) (ss now : Int)
    (resume device module' : String) :
    resolveStart false queryResult ss now resume device module' =
      resumeCheck (if ss ≠ 0 then now - ss else timeZeroUnix) resume device module' := by
  cases queryResult <;> rfl

theorem resolveStart_true_some (vec : List Sample) (ss now : Int)
    (resume device module' : String) :
    resolveStart true (some vec) ss now resume device module' =
      resumeCheck
        (if sinceFromVec device module' vec = timeZeroUnix ∧ ss ≠ 0 then now - ss
         else sinceFromVec device module' vec)
        resume device module' := rfl

theorem resumeCheck_no_token (since : Int) (device module' : String) :
    resumeCheck since "" device module' = (.start since, "") := rfl

theorem resumeCheck_token_match (since sec : Int) (resume device module' eStr : String)
    (hsplit : goSplitSlash resume = [device, module', eStr])
    (hatoi : goAtoi eStr = some sec) :
    resumeCheck since resume device module' = (.start sec, "") := by
  have hne : resume ≠ "" := by
    intro h
    rw [h, goSplitSlash_nil] at hsplit
    simp at hsplit
  simp [resumeCheck, hne, hsplit, hatoi]

theorem resumeCheck_token_mismatch (since : Int) (resume device module' d m eStr : String)
    (hsplit : goSplitSlash resume = [d, m, eStr])
    (hmm : d ≠ device ∨ m ≠ module') :
    resumeCheck since resume device module' = (.skip, resume) := by
  have hne : resume ≠ "" := by
    intro h
    rw [h, goSplitSlash_nil] at hsplit
    simp at hsplit
  by_cases hd : d = device
  · subst hd
    have hm : m ≠ module' := hmm.resolve_left (by simp)
    simp [resumeCheck, hne, hsplit, hm]
  · simp [resumeCheck, hne, hsplit, hd]

/-! ## Claim theorems: main.go -/

/-- C3: when the resume token's first two fields equal the unit's device and
module and its third field parses, the start time is exactly the token's epoch
seconds — whatever the incremental query or lookback would have produced — and
the token comes out cleared, so every later unit of the run is processed with
no token set. -/
theorem c3_resume_token_match (inc : Bool) (query : SyncUnit → Option (List Sample))
    (ss now : Int) (u : SyncUnit) (resume eStr : String) (sec : Int) (us : List SyncUnit)
    (hq : inc = true → (query u).isSome = true)
    (hsplit : goSplitSlash resume = [u.device, u.module', eStr])
    (hatoi : goAtoi eStr = some sec) :
    resolveStart inc (query u) ss now resume u.device u.module'
        = (StartResult.start sec, "") ∧
    runUnits inc query ss now resume (u :: us)
        = StartResult.start sec :: runUnits inc query ss now "" us := by
  have h1 : resolveStart inc (query u) ss now resume u.device u.module'
      = (StartResult.start sec, "") := by
    cases inc
    · rw [resolveStart_false]
      exact resumeCheck_token_match _ sec resume u.device u.module' eStr hsplit hatoi
    · rcases Option.isSome_iff_exists.mp (hq rfl) with ⟨vec, hvec⟩
      rw [hvec, resolveStart_true_some]
      exact resumeCheck_token_match _ sec resume u.device u.module' eStr hsplit hatoi
  exact ⟨h1, by simp only [runUnits, h1]⟩

/-- C3 witness: a matching token on the first of two units. -/
theorem c3_resume_token_match_witness :
    resolveStart true (some []) 7 99999 "dev/mod/42" "dev" "mod"
        = (StartResult.start 42, "") ∧
    runUnits true (fun _ => some []) 7 99999 "dev/mod/42"
        (⟨"dev", "mod"⟩ :: [⟨"dev2", ""⟩])
        = StartResult.start 42
            :: runUnits true (fun _ => some []) 7 99999 "" [⟨"dev2", ""⟩] :=
  c3_resume_token_match true (fun _ => some []) 7 99999 ⟨"dev", "mod"⟩
    "dev/mod/42" "42" 42 [⟨"dev2", ""⟩] (fun _ => rfl) (by decide) (by decide)

/-- C4: a resume token whose device or module field differs from the unit
makes `exportHistory` skip the unit — zero getmeasure requests are issued,
whatever pages upstream would serve — and leaves the token unchanged, so the
following units still see it. -/
theorem c4_resume_token_mismatch_skips {A E : Type} (inc : Bool)
    (query : SyncUnit → Option (List Sample)) (ss now : Int) (u : SyncUnit)
    (resume d m eStr : String) (us : List SyncUnit)
    (pages : List (HttpOutcome (List (Group A))))
    (consumer : List (DataPoint A) → Int → Option E)
    (hq : inc = true → (query u).isSome = true)
    (hsplit : goSplitSlash resume = [d, m, eStr])
    (hmm : d ≠ u.device ∨ m ≠ u.module') :
    exportHistoryModel inc (query u) ss now resume u.device u.module' pages consumer
        = (StartResult.skip, resume, 0) ∧
    runUnits inc query ss now resume (u :: us)
        = StartResult.skip :: runUnits inc query ss now resume us := by
  have h1 : resolveStart inc (query u) ss now resume u.device u.module'
      = (StartResult.skip, resume) := by
    cases inc
    · rw [resolveStart_false]
      exact resumeCheck_token_mismatch _ resume u.device u.module' d m eStr hsplit hmm
    · rcases Option.isSome_iff_exists.mp (hq rfl) with ⟨vec, hvec⟩
      rw [hvec, resolveStart_true_some]
      exact resumeCheck_token_mismatch _ resume u.device u.module' d m eStr hsplit hmm
  constructor
  · simp only [exportHistoryModel, h1]
  · simp only [runUnits, h1]

/-- C4 witness: a token for another device skips the unit with zero requests
and an unchanged token. -/
theorem c4_resume_token_mismatch_skips_witness :
    exportHistoryModel true (some []) 7 99999 "other/mod/42" "dev" "mod"
        [okPage ([] : List (Group Int))] cexConsumer
        = (StartResult.skip, "other/mod/42", 0) ∧
    runUnits true (fun _ => some []) 7 99999 "other/mod/42"
        (⟨"dev", "mod"⟩ :: [⟨"other", "mod"⟩])
        = StartResult.skip
            :: runUnits true (fun _ => some []) 7 99999 "other/mod/42" [⟨"other", "mod"⟩] :=
  c4_resume_token_mismatch_skips true (fun _ => some []) 7 99999 ⟨"dev", "mod"⟩
    "other/mod/42" "other" "mod" "42" [⟨"other", "mod"⟩]
    [okPage ([] : List (Group Int))] cexConsumer
    (fun _ => rfl) (by decide) (by decide)

/-- C6: with incremental mode on, no resume token set, and the sink query
returning a vector whose first sample matching the unit has time `t`, the
pagination start is exactly `t + 1` second, regardless of the configured
lookback (the hypothesis excludes the degenerate `t + 1` equal to Go's zero
time instant, where the source's `IsZero` check would fall through to the
lookback). -/
theorem c6_incremental_start (vec : List Sample) (s : Sample) (ss now : Int)
    (device module' : String)
    (hfind : vec.find? (sampleMatches device module') = some s)
    (hnz : s.value + 1 ≠ timeZeroUnix) :
    resolveStart true (some vec) ss now "" device module'
        = (StartResult.start (s.value + 1), "") := by
  rw [resolveStart_true_some]
  have hsv : sinceFromVec device module' vec = s.value + 1 := by
    simp [sinceFromVec, hfind]
  rw [hsv, if_neg (fun hand => hnz hand.1)]
  exact resumeCheck_no_token _ device module'

/-- C6 witness: a matching sample at time 100 with a nonzero lookback
configured still starts at 101. -/
theorem c6_incremental_start_witness :
    resolveStart true (some [⟨"dev", 100⟩]) 12345 99999 "" "dev" ""
        = (StartResult.start 101, "") :=
  c6_incremental_start [⟨"dev", 100⟩] ⟨"dev", 100⟩ 12345 99999 "dev" ""
    (by decide) (by decide)

/-- C10: there is a non-empty resume token with fewer than two slash
separators (here "abc", against a unit whose device is "abc") on which the
token check indexes past the split parts — a runtime panic — instead of
skipping or failing cleanly. -/
theorem c10_malformed_token_panics :
    ∃ resume device : String, resume ≠ "" ∧ resume.toList.count '/' < 2 ∧
      ∀ (module' : String) (ss now : Int),
        resolveStart false none ss now resume device module'
          = (StartResult.panicOOB, resume) := by
  refine ⟨"abc", "abc", by decide, by decide, ?_⟩
  intro module' ss now
  have h1 : goSplitSlash "abc" = ["abc"] := by decide
  have hne : ("abc" : String) ≠ "" := by decide
  rw [resolveStart_false]
  simp [resumeCheck, hne, h1]

end Netatmo
